import Mathlib

/-!
Shallow embedding of the umongo ODM core (data proxy, field (de)serialization,
index derivation, query cooking, and the pymongo commit protocol) used to
check the natural-language specification against the code.

Python dicts are modelled as association lists preserving first-insertion
order; the marshmallow `missing` sentinel is the `MVal.missing` constructor,
distinct from the Python `None` value `PyVal.vnone`.
-/

namespace Umongo

/-- A concrete scalar value of the OO/mongo worlds. `vnone` is Python `None`. -/
inductive PyVal where
  | vnone
  | vint (n : Int)
  | vstr (s : String)
deriving DecidableEq, Repr

/-- A value slot that may also hold the marshmallow `missing` sentinel. -/
inductive MVal where
  | missing
  | val (v : PyVal)
deriving DecidableEq, Repr

/-- Lookup in an association list (Python `dict.get` / `dict[k]`). -/
def getA {α : Type} (l : List (String × α)) (k : String) : Option α :=
  match l with
  | [] => none
  | (k₁, v₁) :: t => if k₁ = k then some v₁ else getA t k

/-- `d[k] = v` on a Python dict: replace in place, else append (insertion order kept). -/
def setA {α : Type} (l : List (String × α)) (k : String) (v : α) : List (String × α) :=
  match l with
  | [] => [(k, v)]
  | (k₁, v₁) :: t => if k₁ = k then (k, v) :: t else (k₁, v₁) :: setA t k v

/-- `set.add` on a set of keys modelled as a duplicate-free list. -/
def insertMod (k : String) (l : List String) : List String :=
  if l.contains k then l else k :: l

/-- marshmallow's null error message (`error_messages['null']`). -/
def nullErrorMsg : String := "Field may not be null."

/-- `DataProxy.required_validate` message for a missing required field. -/
def requiredErrorMsg : String := "Missing data for required field."

/-- `BaseField.default_error_messages['unique']`. -/
def uniqueErrorMsg : String := "Field value must be unique."

/-- ASCII apostrophe, used to render Python list reprs without quoting issues. -/
def sq : String := String.singleton (Char.ofNat 39)

/-- Python `repr` of a list of strings, as produced by `str.format(fields=keys)`. -/
def pyListRepr (keys : List String) : String :=
  "[" ++ String.intercalate ", " (keys.map (fun k => sq ++ k ++ sq)) ++ "]"

/-- `BaseField.default_error_messages['unique_compound']` after `.format(fields=keys)`. -/
def uniqueCompoundMsg (keys : List String) : String :=
  "Values of fields " ++ pyListRepr keys ++ " must be unique together."

/--
`umongo.abstract.BaseField` restricted to base scalar fields: `attribute` is
the optional storage-key rename, `fdefault` the already-deserialized
default/missing value (umongo resolves defaults eagerly at construction).
`_serialize_to_mongo`/`_deserialize_from_mongo` of the base field are the
identity, so are not stored.
-/
structure BField where
  attr : Option String := none
  required : Bool := false
  allow_none : Bool := false
  unique : Bool := false
  dump_only : Bool := false
  fdefault : MVal := .missing
deriving DecidableEq, Repr

/-- The storage key of a field declared under logical name `name`:
`field.attribute or name`. -/
def BField.mongoKey (f : BField) (name : String) : String :=
  f.attr.getD name

/-- `BaseField._serialize_to_mongo` (identity for the base field). -/
def BField.serializeToMongoRaw (_f : BField) (v : PyVal) : PyVal := v

/-- `BaseField._deserialize_from_mongo` (identity for the base field). -/
def BField.deserializeFromMongoRaw (_f : BField) (v : PyVal) : PyVal := v

/-- `BaseField.serialize_to_mongo`: `None` passes through when `allow_none`,
`missing` passes through, otherwise `_serialize_to_mongo`. -/
def BField.serialize_to_mongo (f : BField) (v : MVal) : MVal :=
  match v with
  | .val .vnone => if f.allow_none then .val .vnone else .val (f.serializeToMongoRaw .vnone)
  | .missing => .missing
  | .val x => .val (f.serializeToMongoRaw x)

/-- `BaseField.deserialize_from_mongo`: `None` passes through when `allow_none`,
otherwise `_deserialize_from_mongo`. -/
def BField.deserialize_from_mongo (f : BField) (v : PyVal) : PyVal :=
  match v with
  | .vnone => if f.allow_none then .vnone else f.deserializeFromMongoRaw .vnone
  | x => f.deserializeFromMongoRaw x

/-- `marshmallow.Field.deserialize` combined with umongo's overridden
`_validate_missing`: a `None` input fails with the null error unless
`allow_none`; other base-field values deserialize to themselves. -/
def BField.deserialize (f : BField) (v : PyVal) : Except String PyVal :=
  match v with
  | .vnone => if f.allow_none then .ok .vnone else .error nullErrorMsg
  | x => .ok x

/-- The `_fields_from_mongo_key` lookup table of a data proxy class. -/
def fieldsByMongoKey (fields : List (String × BField)) : List (String × BField) :=
  fields.map (fun nf => (nf.2.mongoKey nf.1, nf.2))

/-- Errors surfaced by the data proxy and the commit protocol. -/
inductive PErr where
  | keyError (name : String)
  | fieldNotLoaded (name : String)
  | unknownFieldInDB (name : String)
  | notCreated
  | validationMsg (m : String)
  | validationErrors (errors : List (String × String))
deriving DecidableEq, Repr

/-- Per-field errors collected by `Schema.load` (aggregated, never fail-fast). -/
def schemaLoadErrors (fields : List (String × BField)) (input : List (String × PyVal)) :
    List (String × String) :=
  input.filterMap (fun kv =>
    match getA fields kv.1 with
    | none => some (kv.1, "Unknown field name " ++ kv.1 ++ ".")
    | some f =>
      match f.deserialize kv.2 with
      | .error m => some (kv.1, m)
      | .ok _ => none)

/-- The loaded data of `Schema.load`, keyed by storage key (marshmallow keys
its load result by each field's `attribute`). -/
def schemaLoadData (fields : List (String × BField)) (input : List (String × PyVal)) :
    List (String × MVal) :=
  input.filterMap (fun kv =>
    match getA fields kv.1 with
    | none => none
    | some f =>
      match f.deserialize kv.2 with
      | .error _ => none
      | .ok v => some (f.mongoKey kv.1, .val v))

/-- `Schema.load`: aggregate all per-field errors, else return data keyed by
storage key. Required-field checks are always deferred (umongo loads with
`partial=True`). -/
def schemaLoad (fields : List (String × BField)) (input : List (String × PyVal)) :
    Except PErr (List (String × MVal)) :=
  match schemaLoadErrors fields input with
  | [] => .ok (schemaLoadData fields input)
  | errs => .error (.validationErrors errs)

/--
`umongo.data_proxy.BaseDataProxy`: `fields` is the class-level schema field
table (logical name, ordered); `data` maps storage keys to current values;
`modified` is the set of modified storage keys; `notLoaded` the set of
logical names excluded by a partial load.
-/
structure DataProxy where
  fields : List (String × BField)
  data : List (String × MVal)
  modified : List String
  notLoaded : List String
deriving DecidableEq, Repr

/-- A fresh proxy for a schema, before any load. -/
def initProxy (fields : List (String × BField)) : DataProxy :=
  { fields := fields, data := [], modified := [], notLoaded := [] }

/-- `BaseDataProxy._add_missing_fields`: fill every schema storage key absent
from the data with the field's resolved default (`field.missing`). -/
def DataProxy.addMissingFields (p : DataProxy) : DataProxy :=
  { p with
    data := p.fields.foldl (fun d nf =>
      let key := nf.2.mongoKey nf.1
      if (getA d key).isSome then d else setA d key nf.2.fdefault) p.data }

/-- `BaseDataProxy.clear_modified` (no dirty-aware containers in this model). -/
def DataProxy.clearModified (p : DataProxy) : DataProxy :=
  { p with modified := [] }

/-- `BaseDataProxy.load(data, partial)`: schema-load, replace the value map,
mark every loaded storage key modified, record not-loaded logical names when
`part` is true, then fill missing fields with defaults. -/
def DataProxy.load (p : DataProxy) (input : List (String × PyVal)) (part : Bool) :
    Except PErr DataProxy :=
  match schemaLoad p.fields input with
  | .error e => .error e
  | .ok loaded =>
    let p1 : DataProxy :=
      { p with data := loaded, modified := loaded.map Prod.fst }
    let p2 : DataProxy :=
      if part then
        { p1 with notLoaded :=
            (p1.fields.map Prod.fst).filter (fun k => (getA input k).isNone) }
      else { p1 with notLoaded := [] }
    .ok p2.addMissingFields

/-- `BaseDataProxy.update(data)`: partial schema-load, merge into the value
map, discard reloaded fields from the not-loaded set, mark keys modified. -/
def DataProxy.update (p : DataProxy) (input : List (String × PyVal)) :
    Except PErr DataProxy :=
  match schemaLoad p.fields input with
  | .error e => .error e
  | .ok loaded =>
    let d := loaded.foldl (fun acc kv => setA acc kv.1 kv.2) p.data
    let nl := p.notLoaded.filter (fun ln =>
      match getA p.fields ln with
      | some f => !(loaded.any (fun kv => kv.1 == f.mongoKey ln))
      | none => true)
    let md := loaded.foldl (fun m kv => insertMod kv.1 m) p.modified
    .ok { p with data := d, modified := md, notLoaded := nl }

/-- `BaseDataProxy._get_field`: unknown name raises (KeyError by default), a
not-loaded field raises `FieldNotLoadedError`, else yields the storage key
and the field. -/
def DataProxy.getField (p : DataProxy) (name : String) : Except PErr (String × BField) :=
  match getA p.fields name with
  | none => .error (.keyError name)
  | some f =>
    if p.notLoaded.contains name then .error (.fieldNotLoaded name)
    else .ok (f.mongoKey name, f)

/-- `BaseDataProxy.get` by logical name. -/
def DataProxy.get (p : DataProxy) (name : String) : Except PErr MVal :=
  match p.getField name with
  | .error e => .error e
  | .ok (k, _) =>
    match getA p.data k with
    | some v => .ok v
    | none => .error (.keyError k)

/-- `BaseDataProxy.set` by logical name: null check, base-field deserialize
(identity), store and mark modified. -/
def DataProxy.set (p : DataProxy) (name : String) (value : PyVal) :
    Except PErr DataProxy :=
  match p.getField name with
  | .error e => .error e
  | .ok (k, f) =>
    if value = .vnone && !f.allow_none then .error (.validationMsg nullErrorMsg)
    else .ok { p with data := setA p.data k (.val value), modified := insertMod k p.modified }

/-- `BaseDataProxy.delete` by logical name: reset to the resolved default and
mark modified. -/
def DataProxy.delete (p : DataProxy) (name : String) : Except PErr DataProxy :=
  match p.getField name with
  | .error e => .error e
  | .ok (k, f) =>
    .ok { p with data := setA p.data k f.fdefault, modified := insertMod k p.modified }

/-- `BaseDataProxy.get_by_mongo_name`: read `_data[name]`, then raise
`FieldNotLoadedError` when the owning field was excluded by a partial load. -/
def DataProxy.getByMongoName (p : DataProxy) (name : String) : Except PErr MVal :=
  match getA p.data name with
  | none => .error (.keyError name)
  | some v =>
    match p.fields.find? (fun nf => nf.2.mongoKey nf.1 == name) with
    | none => .error (.keyError name)
    | some nf =>
      if p.notLoaded.contains nf.1 then .error (.fieldNotLoaded name) else .ok v

/-- `BaseDataProxy.set_by_mongo_name` (success path; the Python in-place
mutation performed before the not-loaded check is not observable here). -/
def DataProxy.setByMongoName (p : DataProxy) (name : String) (value : MVal) :
    Except PErr DataProxy :=
  match p.fields.find? (fun nf => nf.2.mongoKey nf.1 == name) with
  | none => .error (.keyError name)
  | some nf =>
    if p.notLoaded.contains nf.1 then .error (.fieldNotLoaded name)
    else .ok { p with data := setA p.data name value, modified := insertMod name p.modified }

/-- `BaseDataProxy._to_mongo`: one entry per stored storage key whose
serialized value is not `missing`. (An unknown storage key would raise a
`KeyError` in Python; it cannot occur after a load and is skipped here.) -/
def DataProxy.toMongo (p : DataProxy) : List (String × PyVal) :=
  p.data.filterMap (fun kv =>
    match getA (fieldsByMongoKey p.fields) kv.1 with
    | none => none
    | some f =>
      match f.serialize_to_mongo kv.2 with
      | .missing => none
      | .val v => some (kv.1, v))

/-- `BaseDataProxy.get_modified_fields`: logical names of schema fields whose
storage key is in the modified set (no dirty-aware containers here). -/
def DataProxy.getModifiedFields (p : DataProxy) : List String :=
  (p.fields.filter (fun nf => p.modified.contains (nf.2.mongoKey nf.1))).map Prod.fst

/-- `BaseDataProxy.is_modified` (scalar fields only). -/
def DataProxy.isModified (p : DataProxy) : Bool :=
  !p.modified.isEmpty

/-- `BaseDataProxy._to_mongo_update`: the minimal diff. `none` models the
Python `None` no-op return; otherwise the `$set` entries and `$unset` keys. -/
def DataProxy.toMongoUpdate (p : DataProxy) :
    Option (List (String × PyVal) × List String) :=
  let step := p.getModifiedFields.map (fun name =>
    match getA p.fields name with
    | none => (name, MVal.missing)
    | some f =>
      (f.mongoKey name, f.serialize_to_mongo ((getA p.data (f.mongoKey name)).getD .missing)))
  let setData := step.filterMap (fun kv =>
    match kv.2 with
    | .val v => some (kv.1, v)
    | .missing => none)
  let unsetData := step.filterMap (fun kv =>
    match kv.2 with
    | .missing => some kv.1
    | .val _ => none)
  if setData.isEmpty && unsetData.isEmpty then none else some (setData, unsetData)

/-- `BaseDataProxy.from_mongo` (strict proxy): values arrive in storage
representation; an unknown storage key raises `UnknownFieldInDBError`. -/
def DataProxy.fromMongo (p : DataProxy) (input : List (String × PyVal)) (part : Bool) :
    Except PErr DataProxy :=
  match (input.filter (fun kv => (getA (fieldsByMongoKey p.fields) kv.1).isNone)).head? with
  | some kv => .error (.unknownFieldInDB kv.1)
  | none =>
    let d := input.filterMap (fun kv =>
      (getA (fieldsByMongoKey p.fields) kv.1).map
        (fun f => (kv.1, MVal.val (f.deserialize_from_mongo kv.2))))
    let nl :=
      if part then
        (p.fields.filter (fun nf => (getA input (nf.2.mongoKey nf.1)).isNone)).map Prod.fst
      else []
    .ok (DataProxy.addMissingFields { p with data := d, modified := [], notLoaded := nl })

/-- `BaseDataProxy.required_validate` error collection: a required field whose
value is `missing` contributes one error (base fields have no
`_required_validate`). -/
def DataProxy.requiredErrors (p : DataProxy) : List (String × String) :=
  p.fields.filterMap (fun nf =>
    let v := (getA p.data (nf.2.mongoKey nf.1)).getD .missing
    if nf.2.required && v == .missing then some (nf.1, requiredErrorMsg) else none)

/-!  Documents (`umongo.document.DocumentImplementation`).  -/

/-- A document: its creation flag and its data proxy. -/
structure Document where
  is_created : Bool
  data : DataProxy
deriving DecidableEq, Repr

/-- `DocumentImplementation.is_modified`:
`not self.is_created or self._data.is_modified()`. -/
def Document.isModified (d : Document) : Bool :=
  !d.is_created || d.data.isModified

/-- `DocumentImplementation.pk`: the `_id` value, or `none` when unset. -/
def Document.pk (d : Document) : Option PyVal :=
  match d.data.getByMongoName "_id" with
  | .ok (.val v) => some v
  | _ => none

/-- The two shapes returned by `DocumentImplementation.to_mongo`. -/
inductive MongoPayload where
  | insert (payload : List (String × PyVal))
  | update (payload : Option (List (String × PyVal) × List String))
deriving DecidableEq, Repr

/-- `DocumentImplementation.to_mongo(update)`: an update payload requires the
document to be created. -/
def Document.to_mongo (d : Document) (upd : Bool) : Except PErr MongoPayload :=
  if upd && !d.is_created then .error .notCreated
  else if upd then .ok (.update d.data.toMongoUpdate)
  else .ok (.insert d.data.toMongo)

/-- `clear_modified` lifted to the document. -/
def Document.clearModified (d : Document) : Document :=
  { d with data := d.data.clearModified }

/-!  Query mapping (`umongo.query_mapper`) and filter cooking
(`umongo.frameworks.tools.cook_find_filter`).  -/

/-- A field as seen by the query mapper: its storage-key rename and, for
embedded-document fields (or lists of them), the nested schema fields. -/
inductive QField where
  | mk (attr : Option String) (sub : Option (List (String × QField)))

/-- `getattr(field, attribute, None)` for a query-mapper field. -/
def QField.attr : QField → Option String
  | .mk a _ => a

/-- The nested schema fields of an embedded field, if any. -/
def QField.sub : QField → Option (List (String × QField))
  | .mk _ s => s

/-- A mongo query fragment: a dict, a list, or a plain value. -/
inductive Query where
  | dict (entries : List (String × Query))
  | arr (items : List Query)
  | leaf (v : PyVal)

/-- Python truthiness of a query fragment (`filter or {}`). -/
def Query.truthy : Query → Bool
  | .dict es => !es.isEmpty
  | .arr xs => !xs.isEmpty
  | .leaf .vnone => false
  | .leaf (.vint n) => n != 0
  | .leaf (.vstr s) => s != ""

/-- `query_mapper.map_entry`: replace one path component by its storage key;
descend into embedded-document fields. Unknown components (commands such as
`$eq`, or stray names) pass through with the field table unchanged. -/
def map_entry (entry : String) (fields : List (String × QField)) :
    String × List (String × QField) :=
  match getA fields entry with
  | none => (entry, fields)
  | some f =>
    (f.attr.getD entry,
     match f.sub with
     | some sub => sub
     | none => fields)

/-- Python `entry.split(".")`, computed on character lists. -/
def splitDots (entry : String) : List String :=
  (entry.toList.splitOn (Char.ofNat 46)).map String.mk

/-- Python `".".join(parts)`. -/
def joinDots : List String → String
  | [] => ""
  | [x] => x
  | x :: t => x ++ "." ++ joinDots t

/-- `query_mapper.map_entry_with_dots`: map every `.`-separated component,
threading the (possibly nested) field table left to right. -/
def map_entry_with_dots (entry : String) (fields : List (String × QField)) :
    String × List (String × QField) :=
  let step := (splitDots entry).foldl
    (fun (acc : List String × List (String × QField)) sub =>
      let r := map_entry sub acc.2
      (acc.1 ++ [r.1], r.2))
    ([], fields)
  (joinDots step.1, step.2)

mutual

/-- `query_mapper.map_query`: rewrite every dict key by
`map_entry_with_dots`, recursing into values and lists. -/
def map_query : Query → List (String × QField) → Query
  | .dict es, fields => .dict (map_query_entries es fields)
  | .arr xs, fields => .arr (map_query_list xs fields)
  | .leaf v, _ => .leaf v

def map_query_entries :
    List (String × Query) → List (String × QField) → List (String × Query)
  | [], _ => []
  | e :: t, fields =>
    let r := map_entry_with_dots e.1 fields
    (r.1, map_query e.2 r.2) :: map_query_entries t fields

def map_query_list : List Query → List (String × QField) → List Query
  | [], _ => []
  | q :: t, fields => map_query q fields :: map_query_list t fields

end

/-- The document-class data `cook_find_filter` consults: the class name, its
schema fields, the `is_child` option and the names of its offspring. -/
structure DocCls where
  name : String
  fields : List (String × QField)
  is_child : Bool
  offspring : List String

/-- The discriminator clause `cook_find_filter` sets under `_cls`: the class
name alone, or `$in` over the offspring names plus the class name. -/
def discriminatorClause (cls : DocCls) : Query :=
  if cls.offspring.isEmpty then .leaf (.vstr cls.name)
  else .dict [("$in", .arr ((cls.offspring ++ [cls.name]).map (fun n => .leaf (.vstr n))))]

/-- `frameworks.tools.cook_find_filter`: rewrite field names by `map_query`;
for a child class normalize the filter to a dict (falsy filters become `{}`,
a non-dict becomes `{_id: filter}`) and set the `_cls` discriminator entry. -/
def cook_find_filter (cls : DocCls) (filter : Option Query) : Option Query :=
  let mapped := filter.map (fun q => map_query q cls.fields)
  if cls.is_child then
    let f : List (String × Query) :=
      match mapped with
      | none => []
      | some q =>
        if !q.truthy then []
        else
          match q with
          | .dict es => es
          | q₁ => [("_id", q₁)]
    some (.dict (setA f "_cls" (discriminatorClause cls)))
  else mapped

/-!  Indexes (`umongo.indexes` and `umongo.builder._collect_indexes`).  -/

/-- A mongo index key direction (pymongo ASCENDING/DESCENDING/TEXT/HASHED). -/
inductive Dir where
  | asc
  | desc
  | text
  | hashed
deriving DecidableEq, Repr

/-- The rendering of a direction inside a generated index name. -/
def Dir.code : Dir → String
  | .asc => "1"
  | .desc => "-1"
  | .text => "text"
  | .hashed => "hashed"

/-- One entry of an index declaration: a shorthand string or an explicit
`(key, direction)` pair. -/
inductive IndexKey where
  | raw (s : String)
  | pair (k : String) (d : Dir)
deriving DecidableEq, Repr

/-- Does `s` start with character `c`? (computed on the character list so
that it reduces definitionally). -/
def strHeadIs (c : Char) (s : String) : Bool :=
  match s.toList with
  | [] => false
  | c₁ :: _ => c₁ == c

/-- `s[1:]`: drop the first character. -/
def strTail (s : String) : String :=
  String.mk (s.toList.drop 1)

/-- `indexes.explicit_key`: decode the `+`/`-`/`$`/`#` shorthand prefixes. -/
def explicit_key : IndexKey → String × Dir
  | .pair k d => (k, d)
  | .raw s =>
    if strHeadIs (Char.ofNat 43) s then (strTail s, .asc)
    else if strHeadIs (Char.ofNat 45) s then (strTail s, .desc)
    else if strHeadIs (Char.ofNat 36) s then (strTail s, .text)
    else if strHeadIs (Char.ofNat 35) s then (strTail s, .hashed)
    else (s, .asc)

/-- An index declaration as accepted by `indexes.parse_index`: a plain
string, a compound list, or a dict with a key list plus options (only the
`unique`/`sparse` options appear in this development). -/
inductive IndexSpec where
  | str (s : String)
  | keys (ks : List IndexKey)
  | dict (key : List IndexKey) (unique : Bool) (sparse : Bool)
deriving DecidableEq, Repr

/-- A normalized index (`pymongo.IndexModel` document restricted to the
fields the code reads): keys with directions plus the unique/sparse flags. -/
structure IndexM where
  keys : List (String × Dir)
  unique : Bool := false
  sparse : Bool := false
deriving DecidableEq, Repr

/-- pymongo's auto-generated index name (no explicit names are used here). -/
def IndexM.iname (i : IndexM) : String :=
  String.intercalate "_" (i.keys.map (fun kd => kd.1 ++ "_" ++ kd.2.code))

/-- `indexes.parse_index`: normalize a declaration, appending
`base_compound_field` to the key list when given. -/
def parse_index (spec : IndexSpec) (base_compound_field : Option String) : IndexM :=
  let base : IndexM :=
    match spec with
    | .str s => { keys := [explicit_key (.raw s)] }
    | .keys l => { keys := l.map explicit_key }
    | .dict key u sp => { keys := key.map explicit_key, unique := u, sparse := sp }
  match base_compound_field with
  | some b => { base with keys := base.keys ++ [explicit_key (.raw b)] }
  | none => base

/-- The index spec built by `_collect_indexes.parse_field` for a unique
field: unique, sparse when the field is not required or allows None, with
`_cls` appended for child documents. -/
def parse_field_spec (is_child : Bool) (mongo_path : String) (f : BField) :
    Option IndexSpec :=
  if f.unique then
    some (.dict ((if is_child then [mongo_path, "_cls"] else [mongo_path]).map .raw)
      true ((!f.required) || f.allow_none))
  else none

/-- The `mongo_path` argument `_collect_indexes` passes to `parse_field`:
`name or field.attribute` (the logical name whenever it is non-empty). -/
def fieldIndexPath (name : String) (f : BField) : String :=
  if name = "" then f.attr.getD "" else name

/-- The unique-field indexes collected from a schema's own fields. -/
def collectFieldIndexes (is_child : Bool) (fields : List (String × BField)) :
    List IndexM :=
  fields.filterMap (fun nf =>
    (parse_field_spec is_child (fieldIndexPath nf.1 nf.2) nf.2).map
      (fun s => parse_index s none))

/-- `builder._collect_indexes`: parent indexes, then Meta custom indexes
(compound with `_cls` for children), then the automatic `_cls` index for
children, then the unique-field indexes. -/
def collect_indexes (is_child : Bool) (metaIndexes : List IndexSpec)
    (fields : List (String × BField)) (parentIndexes : List IndexM) : List IndexM :=
  let custom := metaIndexes.map
    (fun x => parse_index x (if is_child then some "_cls" else none))
  let auto := if is_child then [parse_index (.str "_cls") none] else []
  parentIndexes ++ custom ++ auto ++ collectFieldIndexes is_child fields

/-- `schema.add_child_field`: inject the hidden discriminator field
`cls = StrField(attribute=_cls, default=name, dump_only=True)`. -/
def add_child_field (name : String) (fields : List (String × BField)) :
    List (String × BField) :=
  setA fields "cls"
    { attr := some "_cls", fdefault := .val (.vstr name), dump_only := true }

/-!  The pymongo commit protocol (`umongo.frameworks.pymongo`).  -/

/-- Is `pat` an infix of `l`? (Python `pat in s` on strings.) -/
def isInfixCh (p : List Char) : List Char → Bool
  | [] => p.isEmpty
  | c :: t => p.isPrefixOf (c :: t) || isInfixCh p t

/-- Python's `pat in s` substring test. -/
def strContains (s pat : String) : Bool :=
  isInfixCh pat.toList s.toList

/-- Insertion into a sorted list of strings, for `sorted(keys)`. -/
def insertSorted (x : String) : List String → List String
  | [] => [x]
  | y :: t => if x ≤ y then x :: y :: t else y :: insertSorted x t

/-- Python `sorted` on a list of strings. -/
def sortStrings (l : List String) : List String :=
  l.foldr insertSorted []

/-- The test `PyMongoDocument.commit` applies to decide whether a declared
index explains a duplicate-key error message:
`.$<name> in errmsg or <sp><name><sp> in errmsg`. -/
def IndexM.matchesErrmsg (i : IndexM) (errmsg : String) : Bool :=
  strContains errmsg (".$" ++ i.iname) || strContains errmsg (" " ++ i.iname ++ " ")

/-- A per-field validation message: a single string (duplicate-key
translation) or a list of messages (required/io validation). -/
inductive ErrMsgs where
  | one (m : String)
  | many (ms : List String)
deriving DecidableEq, Repr

/-- The structured error payload `commit` raises for a matched duplicate-key
index: the single-key unique message, or the compound message over the
sorted key names. -/
def dupErrorPayload (idx : IndexM) : List (String × ErrMsgs) :=
  match idx.keys.map Prod.fst with
  | [k] => [(k, .one uniqueErrorMsg)]
  | ks =>
    let sorted := sortStrings ks
    sorted.map (fun k => (k, .one (uniqueCompoundMsg sorted)))

/-- The duplicate-key branch of `commit`: the first declared index whose name
appears in the error message yields a structured error; otherwise `none`
(the raw storage error is re-raised). -/
def translateDupError (errmsg : String) (indexes : List IndexM) :
    Option (List (String × ErrMsgs)) :=
  (indexes.find? (fun i => i.matchesErrmsg errmsg)).map dupErrorPayload

/-- Errors a commit can end in. -/
inductive CommitErr where
  | runtimeError
  | validationErrors (errors : List (String × ErrMsgs))
  | updateError
  | dupKeyReraise (errmsg : String)
  | proxyError (e : PErr)
deriving DecidableEq, Repr

/-- Observable events of one commit, in order. -/
inductive Ev where
  | preInsert
  | preUpdate
  | requiredValidate
  | ioValidateField (name : String)
  | storeInsert
  | storeUpdate
  | postInsert
  | postUpdate
deriving DecidableEq, Repr

/-- The phase of an event: hooks, required validation, io validation,
storage write, post hooks. -/
def Ev.phase : Ev → Nat
  | .preInsert => 0
  | .preUpdate => 0
  | .requiredValidate => 1
  | .ioValidateField _ => 2
  | .storeInsert => 3
  | .storeUpdate => 3
  | .postInsert => 4
  | .postUpdate => 4

/-- A storage operation issued by a commit. -/
inductive StoreOp where
  | insertOne (payload : List (String × PyVal))
  | updateOne (query : List (String × PyVal))
      (payload : Option (List (String × PyVal) × List String))
deriving DecidableEq, Repr

/-- The environment a commit runs against: the outcome of each field's io
validators (`[]` means pass — `_run_validators` collects all messages), the
document's declared indexes, and the storage backend's responses. -/
structure CommitEnv where
  ioValidate : String → PyVal → List String
  indexes : List IndexM
  insertResult : Except String PyVal
  updateDup : Option String
  updateMatched : Bool
deriving Inhabited

/-- Should `_io_validate_data_proxy` skip this field? (`partial` is falsy
when `None` or empty, in which case every field is validated.) -/
def ioSkips (part : Option (List String)) (name : String) : Bool :=
  match part with
  | none => false
  | some l => !l.isEmpty && !l.contains name

/-- The fields `_io_validate_data_proxy` actually validates: not skipped by
`partial`, with a non-`missing` value. -/
def ioValidatedNames (p : DataProxy) (part : Option (List String)) : List String :=
  p.fields.filterMap (fun nf =>
    if ioSkips part nf.1 then none
    else
      match (getA p.data (nf.2.mongoKey nf.1)).getD .missing with
      | .missing => none
      | .val _ => some nf.1)

/-- `_io_validate_data_proxy`: every validated field's failures, aggregated
per field (never fail-fast). -/
def ioValidateErrors (env : CommitEnv) (p : DataProxy) (part : Option (List String)) :
    List (String × List String) :=
  p.fields.filterMap (fun nf =>
    if ioSkips part nf.1 then none
    else
      match (getA p.data (nf.2.mongoKey nf.1)).getD .missing with
      | .missing => none
      | .val v =>
        match env.ioValidate nf.1 v with
        | [] => none
        | errs => some (nf.1, errs))

/-- The outcome of a commit: the Python return value is `ok true` for a
write, `ok false` for the no-op `None` return; `doc` is the final document
state, `ops` the storage operations issued, `trace` the ordered events. -/
structure CommitOut where
  result : Except CommitErr Bool
  doc : Document
  ops : List StoreOp
  trace : List Ev

/-- The `partial` argument `commit` passes to `_io_validate_data_proxy`:
`None` when validating everything, else the modified fields. -/
def ioPartArg (doc : Document) (io_validate_all : Bool) : Option (List String) :=
  if io_validate_all then none else some doc.data.getModifiedFields

/-- The io-validation events of one commit. -/
def ioEvs (doc : Document) (io_validate_all : Bool) : List Ev :=
  (ioValidatedNames doc.data (ioPartArg doc io_validate_all)).map Ev.ioValidateField

/-- The aggregated required-validation error payload
(`ValidationError(errors)` with one message list per field). -/
def reqErrPayload (doc : Document) : List (String × ErrMsgs) :=
  doc.data.requiredErrors.map (fun kv => (kv.1, .many [kv.2]))

/-- The aggregated io-validation error payload. -/
def ioErrPayload (env : CommitEnv) (doc : Document) (io_validate_all : Bool) :
    List (String × ErrMsgs) :=
  (ioValidateErrors env doc.data (ioPartArg doc io_validate_all)).map
    (fun kv => (kv.1, .many kv.2))

/-- The error `commit` ends in when the storage layer raised a
`DuplicateKeyError` with message `errmsg`. -/
def dupOutcome (errmsg : String) (indexes : List IndexM) : CommitErr :=
  match translateDupError errmsg indexes with
  | some errs => .validationErrors errs
  | none => .dupKeyReraise errmsg

/-- The insert branch of `PyMongoDocument.commit` (after the `conditions`
check): `pre_insert`, required validation, io validation, serialize, insert,
record the generated `_id`, flip `is_created`, `post_insert`, clear the
modified set. A `DuplicateKeyError` from the insert is translated against
the declared indexes or re-raised. -/
def commitInsert (env : CommitEnv) (doc : Document) (io_validate_all : Bool) :
    CommitOut :=
  if doc.data.requiredErrors ≠ [] then
    { result := .error (.validationErrors (reqErrPayload doc)),
      doc := doc, ops := [], trace := [.preInsert, .requiredValidate] }
  else if ioValidateErrors env doc.data (ioPartArg doc io_validate_all) ≠ [] then
    { result := .error (.validationErrors (ioErrPayload env doc io_validate_all)),
      doc := doc, ops := [],
      trace := [.preInsert, .requiredValidate] ++ ioEvs doc io_validate_all }
  else
    match env.insertResult with
    | .error errmsg =>
      { result := .error (dupOutcome errmsg env.indexes),
        doc := doc, ops := [.insertOne doc.data.toMongo],
        trace := [.preInsert, .requiredValidate] ++ ioEvs doc io_validate_all
          ++ [.storeInsert] }
    | .ok newId =>
      match doc.data.setByMongoName "_id" (.val newId) with
      | .error e =>
        { result := .error (.proxyError e), doc := doc,
          ops := [.insertOne doc.data.toMongo],
          trace := [.preInsert, .requiredValidate] ++ ioEvs doc io_validate_all
            ++ [.storeInsert] }
      | .ok p1 =>
        { result := .ok true,
          doc := { is_created := true, data := p1.clearModified },
          ops := [.insertOne doc.data.toMongo],
          trace := [.preInsert, .requiredValidate] ++ ioEvs doc io_validate_all
            ++ [.storeInsert, .postInsert] }

/-- The modified-update branch of `PyMongoDocument.commit`: build the filter
from `conditions` plus the primary key (the default `pre_update` hook adds
nothing), required validation, io validation over the modified fields
(unless `io_validate_all`), minimal-diff update, `UpdateError` when nothing
matched, duplicate-key translation, clear the modified set. -/
def commitUpdate (env : CommitEnv) (doc : Document) (io_validate_all : Bool)
    (conditions : List (String × PyVal)) : CommitOut :=
  if doc.data.requiredErrors ≠ [] then
    { result := .error (.validationErrors (reqErrPayload doc)),
      doc := doc, ops := [], trace := [.preUpdate, .requiredValidate] }
  else if ioValidateErrors env doc.data (ioPartArg doc io_validate_all) ≠ [] then
    { result := .error (.validationErrors (ioErrPayload env doc io_validate_all)),
      doc := doc, ops := [],
      trace := [.preUpdate, .requiredValidate] ++ ioEvs doc io_validate_all }
  else
    match env.updateDup with
    | some errmsg =>
      { result := .error (dupOutcome errmsg env.indexes),
        doc := doc,
        ops := [.updateOne (setA conditions "_id" ((doc.pk).getD .vnone))
          doc.data.toMongoUpdate],
        trace := [.preUpdate, .requiredValidate] ++ ioEvs doc io_validate_all
          ++ [.storeUpdate] }
    | none =>
      if env.updateMatched then
        { result := .ok true, doc := doc.clearModified,
          ops := [.updateOne (setA conditions "_id" ((doc.pk).getD .vnone))
            doc.data.toMongoUpdate],
          trace := [.preUpdate, .requiredValidate] ++ ioEvs doc io_validate_all
            ++ [.storeUpdate, .postUpdate] }
      else
        { result := .error .updateError, doc := doc,
          ops := [.updateOne (setA conditions "_id" ((doc.pk).getD .vnone))
            doc.data.toMongoUpdate],
          trace := [.preUpdate, .requiredValidate] ++ ioEvs doc io_validate_all
            ++ [.storeUpdate] }

/-- `PyMongoDocument.commit`: dispatch between the no-op, update, conditions
error and insert branches. -/
def commit (env : CommitEnv) (doc : Document) (io_validate_all : Bool)
    (conditions : List (String × PyVal)) : CommitOut :=
  if doc.is_created then
    if doc.isModified then commitUpdate env doc io_validate_all conditions
    else
      { result := .ok false, doc := doc.clearModified, ops := [], trace := [] }
  else if !conditions.isEmpty then
    { result := .error .runtimeError, doc := doc, ops := [], trace := [] }
  else commitInsert env doc io_validate_all


/-!  Concrete schemas, documents and environments used to instantiate the
theorems below on explicit inputs.  -/

/-- A two-field schema: renamed id field plus a plain field `a`. -/
def c1Schema : List (String × BField) := [("id", { attr := some "_id" }), ("a", {})]

/-- A persisted document hydrated from storage whose field `a` was then set
to `1` (so `a` is marked modified and no commit has happened since). -/
def c1Doc : Document :=
  { is_created := true,
    data :=
      match (initProxy c1Schema).fromMongo [("_id", .vint 7), ("a", .vint 0)] false with
      | .ok p =>
        (match p.set "a" (.vint 1) with
         | .ok q => q
         | .error _ => p)
      | .error _ => initProxy c1Schema }

/-- A plain field `a`. -/
def c2fa : BField := {}

/-- A field `b` with resolved default `0`. -/
def c2fb : BField := { fdefault := .val (.vint 0) }

/-- The proxy state produced by loading only `a` with a partial load against
the schema holding `a` and `b`. -/
def c2p : DataProxy :=
  { fields := [("a", c2fa), ("b", c2fb)],
    data := [("a", .val (.vint 1)), ("b", .val (.vint 0))],
    modified := ["a"], notLoaded := ["b"] }

/-- A child document class sharing its collection, with no offspring. -/
def dogCls : DocCls :=
  { name := "Dog", fields := [("n", .mk (some "nm") none)],
    is_child := true, offspring := [] }

/-- A non-child root document class. -/
def animalCls : DocCls :=
  { name := "Animal", fields := [("n", .mk (some "nm") none)],
    is_child := false, offspring := [] }

/-- A unique field that is required and allows None, with a storage rename. -/
def c5Field : BField :=
  { attr := some "aa", required := true, allow_none := true, unique := true }

/-- The declared unique index on field `a`. -/
def c4Idx : IndexM := { keys := [("a", Dir.asc)], unique := true }

/-- An environment whose insert raises a duplicate-key error naming the
auto-generated index name `a_1`. -/
def c4Env : CommitEnv :=
  { ioValidate := fun _ _ => [], indexes := [c4Idx],
    insertResult := .error "E11000 duplicate key error index: db.doc.$a_1 dup key",
    updateDup := none, updateMatched := true }

/-- A fresh document over a schema with one unique field. -/
def c4Doc : Document :=
  { is_created := false, data := initProxy [("a", ({ unique := true } : BField))] }

/-- An environment whose update raises a duplicate-key error naming the
auto-generated index name `a_1` (inserts would succeed). -/
def c4UpdEnv : CommitEnv :=
  { ioValidate := fun _ _ => [], indexes := [c4Idx],
    insertResult := .ok (.vint 1),
    updateDup := some "E11000 duplicate key error index: db.doc.$a_1 dup key",
    updateMatched := true }

/-- A created document whose unique field `a` was modified since the last
commit, so its next commit takes the update branch. -/
def c4UpdDoc : Document :=
  { is_created := true,
    data := { fields := [("id", { attr := some "_id" }),
                         ("a", ({ unique := true } : BField))],
              data := [("_id", .val (.vint 7)), ("a", .val (.vint 3))],
              modified := ["a"], notLoaded := [] } }

/-- An environment where the io validator of field `a` fails. -/
def c8Env : CommitEnv :=
  { ioValidate := fun n _ => if n = "a" then ["Reference not found."] else [],
    indexes := [], insertResult := .ok (.vint 1),
    updateDup := none, updateMatched := true }

/-- A fresh modified document with a concrete value for field `a`. -/
def c8Doc : Document :=
  { is_created := false,
    data := { fields := [("a", {})], data := [("a", .val (.vint 3))],
              modified := ["a"], notLoaded := [] } }

/-- A benign environment: inserts succeed, updates match, no failures. -/
def exEnv : CommitEnv :=
  { ioValidate := fun _ _ => [], indexes := [],
    insertResult := .ok (.vint 1), updateDup := none, updateMatched := true }

/-- A freshly instantiated (never persisted) document. -/
def exDoc : Document := { is_created := false, data := initProxy [("a", {})] }

/-!  General lemmas about the embedding.  -/

/-- `getA` after `setA` at the same key. -/
theorem getA_setA {α : Type} (l : List (String × α)) (k : String) (v : α) :
    getA (setA l k v) k = some v := by
  induction l with
  | nil => simp [setA, getA]
  | cons hd tl ih =>
    obtain ⟨k₁, v₁⟩ := hd
    by_cases h : k₁ = k
    · simp [setA, h, getA]
    · simp [setA, h, getA, ih]

/-- `set` never touches the not-loaded bookkeeping. -/
theorem set_notLoaded_eq (p : DataProxy) (n : String) (v : PyVal) (q : DataProxy)
    (h : p.set n v = .ok q) : q.notLoaded = p.notLoaded := by
  unfold DataProxy.set at h
  cases hgf : p.getField n with
  | error e => rw [hgf] at h; cases h
  | ok kf =>
    obtain ⟨k, f⟩ := kf
    rw [hgf] at h
    dsimp only at h
    split at h
    · cases h
    · cases h; rfl

/-- `map_query` on a dict maps each entry through `map_entry_with_dots`. -/
theorem map_query_entries_eq (es : List (String × Query))
    (fields : List (String × QField)) :
    map_query_entries es fields = es.map (fun e =>
      ((map_entry_with_dots e.1 fields).1,
       map_query e.2 (map_entry_with_dots e.1 fields).2)) := by
  induction es with
  | nil => rfl
  | cons hd tl ih => simp [map_query_entries, ih]

/-- A relation that always holds is pairwise on every list. -/
theorem pairwise_total {α : Type} {R : α → α → Prop} (h : ∀ a b, R a b) :
    ∀ l : List α, l.Pairwise R
  | [] => List.Pairwise.nil
  | a :: t => List.Pairwise.cons (fun b _ => h a b) (pairwise_total h t)

/-- Traces of shape hook-then-required, then io events, then a tail of
write/post events, are sorted by phase. -/
theorem pairwise_trace_aux (a : Ev) (ha : a.phase = 0) (names : List String)
    (tail : List Ev)
    (htail : tail.Pairwise (fun x y => x.phase ≤ y.phase))
    (htail3 : ∀ e ∈ tail, 3 ≤ e.phase) :
    ([a, .requiredValidate] ++ names.map Ev.ioValidateField ++ tail).Pairwise
      (fun x y => x.phase ≤ y.phase) := by
  have hmem : ∀ y ∈ names.map Ev.ioValidateField, y.phase = 2 := by
    intro y hy
    obtain ⟨n, -, rfl⟩ := List.mem_map.mp hy
    rfl
  have hmid : (names.map Ev.ioValidateField ++ tail).Pairwise
      (fun x y => x.phase ≤ y.phase) := by
    refine List.pairwise_append.mpr ⟨?_, htail, ?_⟩
    · exact List.pairwise_map.mpr (pairwise_total (fun _ _ => le_refl _) _)
    · intro x hx y hy
      rw [hmem x hx]
      exact le_trans (by norm_num) (htail3 y hy)
  show (a :: Ev.requiredValidate :: (names.map Ev.ioValidateField ++ tail)).Pairwise
    (fun x y => x.phase ≤ y.phase)
  refine List.Pairwise.cons ?_ (List.Pairwise.cons ?_ hmid)
  · intro y hy
    rw [ha]
    exact Nat.zero_le _
  · intro y hy
    rcases List.mem_append.mp hy with h2 | h3
    · rw [hmem y h2]
      norm_num [Ev.phase]
    · exact le_trans (by norm_num [Ev.phase]) (htail3 y h3)

/-- Phase-sortedness of every commit trace: hooks, then required validation,
then io validation, then the storage write, then post hooks. -/
theorem commit_trace_sorted (env : CommitEnv) (d : Document) (ioall : Bool)
    (conds : List (String × PyVal)) :
    (commit env d ioall conds).trace.Pairwise (fun x y => x.phase ≤ y.phase) := by
  unfold commit
  split
  · split
    · unfold commitUpdate
      split
      · dsimp only
        decide
      · split
        · dsimp only
          have h := pairwise_trace_aux .preUpdate rfl
            (ioValidatedNames d.data (ioPartArg d ioall)) [] (by decide) (by simp)
          simpa [ioEvs] using h
        · split
          · dsimp only
            exact pairwise_trace_aux .preUpdate rfl _ [.storeUpdate] (by decide) (by decide)
          · split
            · dsimp only
              exact pairwise_trace_aux .preUpdate rfl _ [.storeUpdate, .postUpdate]
                (by decide) (by decide)
            · dsimp only
              exact pairwise_trace_aux .preUpdate rfl _ [.storeUpdate] (by decide) (by decide)
    · simp
  · split
    · simp
    · unfold commitInsert
      split
      · dsimp only
        decide
      · split
        · dsimp only
          have h := pairwise_trace_aux .preInsert rfl
            (ioValidatedNames d.data (ioPartArg d ioall)) [] (by decide) (by simp)
          simpa [ioEvs] using h
        · split
          · dsimp only
            exact pairwise_trace_aux .preInsert rfl _ [.storeInsert] (by decide) (by decide)
          · split
            · dsimp only
              exact pairwise_trace_aux .preInsert rfl _ [.storeInsert] (by decide) (by decide)
            · dsimp only
              exact pairwise_trace_aux .preInsert rfl _ [.storeInsert, .postInsert]
                (by decide) (by decide)

/-- When the storage layer raises no duplicate-key error, a commit that ends
in an aggregated validation error issued no storage operation. -/
theorem commit_no_write_on_validation_error (env : CommitEnv) (d : Document)
    (ioall : Bool) (conds : List (String × PyVal)) (v : PyVal)
    (hins : env.insertResult = .ok v) (hupd : env.updateDup = none)
    (E : List (String × ErrMsgs))
    (hres : (commit env d ioall conds).result = .error (.validationErrors E)) :
    (commit env d ioall conds).ops = [] := by
  by_cases h1 : d.is_created = true
  · by_cases h2 : d.isModified = true
    · by_cases h3 : d.data.requiredErrors = []
      · by_cases h4 : ioValidateErrors env d.data (ioPartArg d ioall) = []
        · simp [commit, commitUpdate, h1, h2, h3, h4, hupd] at hres
          split at hres <;> simp_all
        · simp [commit, commitUpdate, h1, h2, h3, h4, hupd]
      · simp [commit, commitUpdate, h1, h2, h3]
    · simp [commit, h1, h2] at hres
  · by_cases hc : conds.isEmpty = true
    · by_cases h3 : d.data.requiredErrors = []
      · by_cases h4 : ioValidateErrors env d.data (ioPartArg d ioall) = []
        · simp [commit, commitInsert, h1, hc, h3, h4, hins] at hres
          split at hres <;> simp_all
        · simp [commit, commitInsert, h1, hc, h3, h4]
      · simp [commit, commitInsert, h1, hc, h3]
    · simp [commit, h1, hc] at hres

/-!  Claim theorems.  -/

/-- Claim C1, counterexample: for the persisted document `c1Doc` (hydrated
from storage, then field `a` set to 1), computing the full insert payload
and then the update payload with no mutation in between yields a non-empty
`$set` payload, not the no-op `None`: computing `to_mongo(update=False)`
does not reset the modified set. -/
theorem c1_update_payload_not_noop_after_insert_payload :
    c1Doc.to_mongo false = .ok (.insert [("_id", .vint 7), ("a", .vint 1)]) ∧
    c1Doc.to_mongo true = .ok (.update (some ([("a", .vint 1)], []))) := ⟨rfl, rfl⟩

/-- Claim C1, amended: after `clear_modified` — which `commit` performs on
success, in particular right after serializing and inserting the full
payload — the update payload of a created document is the no-op `None`. -/
theorem c1_update_payload_noop_after_clear_modified (d : Document)
    (h : d.is_created = true) :
    d.clearModified.to_mongo true = .ok (.update none) := by
  unfold Document.to_mongo Document.clearModified
  simp [h]
  unfold DataProxy.toMongoUpdate DataProxy.getModifiedFields DataProxy.clearModified
  simp [List.filter_eq_nil_iff]

/-- Claim C1, witness for the amended theorem at the concrete document. -/
theorem c1_update_payload_noop_witness :
    c1Doc.clearModified.to_mongo true = .ok (.update none) :=
  c1_update_payload_noop_after_clear_modified c1Doc rfl

/-- Claim C2: loading `\x7ba: va\x7d` against the schema `\x7ba, b\x7d` with
`partial=True` leaves `b` inaccessible — reading or writing `b` by logical
name fails with `FieldNotLoadedError`, `set` on other fields preserves the
not-loaded set, and reloading `b` through `update` restores access — while
loading the same input with `partial=False` fills `b` with its resolved
default and permits reads and writes. -/
theorem c2_partial_load_semantics (fa fb : BField) (va va2 : PyVal)
    (ha : fa.attr = none) (hb : fb.attr = none)
    (hda : fa.deserialize va = .ok va2) :
    (∀ p, (initProxy [("a", fa), ("b", fb)]).load [("a", va)] true = .ok p →
        p.get "b" = .error (.fieldNotLoaded "b") ∧
        (∀ v, p.set "b" v = .error (.fieldNotLoaded "b")) ∧
        (∀ n v q, p.set n v = .ok q → q.notLoaded = p.notLoaded) ∧
        (∀ vb vb2 r, fb.deserialize vb = .ok vb2 → p.update [("b", vb)] = .ok r →
            r.get "b" = .ok (.val vb2))) ∧
    (∀ q, (initProxy [("a", fa), ("b", fb)]).load [("a", va)] false = .ok q →
        q.get "b" = .ok fb.fdefault ∧
        (∀ v, v ≠ .vnone → ∃ r, q.set "b" v = .ok r ∧ r.get "b" = .ok (.val v))) := by
  have hload : ∀ part, (initProxy [("a", fa), ("b", fb)]).load [("a", va)] part =
      .ok { fields := [("a", fa), ("b", fb)],
            data := [("a", .val va2), ("b", fb.fdefault)],
            modified := ["a"],
            notLoaded := if part then ["b"] else [] } := by
    intro part
    unfold DataProxy.load schemaLoad schemaLoadErrors schemaLoadData initProxy
    simp [getA, hda, DataProxy.addMissingFields, BField.mongoKey, ha, hb, setA]
    cases part <;> simp [getA, setA, BField.mongoKey, ha, hb]
  constructor
  · intro p hp
    rw [hload true] at hp
    cases hp
    refine ⟨?_, ?_, ?_, ?_⟩
    · simp [DataProxy.get, DataProxy.getField, getA]
    · intro v
      simp [DataProxy.set, DataProxy.getField, getA]
    · intro n v q hq
      exact set_notLoaded_eq _ n v q hq
    · intro vb vb2 r hdb hr
      unfold DataProxy.update schemaLoad schemaLoadErrors schemaLoadData at hr
      simp [getA, hdb, BField.mongoKey, hb, setA] at hr
      cases hr
      simp [DataProxy.get, DataProxy.getField, getA, setA, BField.mongoKey, hb]
  · intro q hq
    rw [hload false] at hq
    cases hq
    constructor
    · simp [DataProxy.get, DataProxy.getField, getA, BField.mongoKey, hb]
    · intro v hv
      refine ⟨{ fields := [("a", fa), ("b", fb)],
                data := [("a", .val va2), ("b", .val v)],
                modified := ["b", "a"], notLoaded := [] }, ?_, ?_⟩
      · unfold DataProxy.set DataProxy.getField
        simp [getA, hv, BField.mongoKey, hb, setA, insertMod]
      · simp [DataProxy.get, DataProxy.getField, getA, BField.mongoKey, hb]

/-- Claim C2, witness at the concrete schema and loaded proxy. -/
theorem c2_partial_load_semantics_witness :
    c2p.get "b" = .error (.fieldNotLoaded "b") ∧
    c2p.set "b" (.vint 5) = .error (.fieldNotLoaded "b") := by
  have h := c2_partial_load_semantics c2fa c2fb (.vint 1) (.vint 1) rfl rfl rfl
  exact ⟨(h.1 c2p rfl).1, (h.1 c2p rfl).2.1 (.vint 5)⟩

/-- Claim C3: for a child document class `cook_find_filter` always sets the
reserved `_cls` entry (overriding any user-supplied value) to the class name
alone when the class has no offspring, and to a `$in` clause over the
offspring names plus the class name otherwise; for a non-child class the
filter is only field-name mapped and no discriminator is added; dict filters
have every key (including dotted paths) rewritten through
`map_entry_with_dots`, a known field mapping to its storage key. -/
theorem c3_child_query_discriminator (cls : DocCls) (filter : Option Query) :
    (cls.is_child = true →
      ∃ es, cook_find_filter cls filter = some (.dict es) ∧
        getA es "_cls" = some (discriminatorClause cls) ∧
        (cls.offspring = [] → discriminatorClause cls = .leaf (.vstr cls.name)) ∧
        (cls.offspring ≠ [] → discriminatorClause cls =
          .dict [("$in", .arr ((cls.offspring ++ [cls.name]).map (fun n => .leaf (.vstr n))))])) ∧
    (cls.is_child = false →
      cook_find_filter cls filter = filter.map (fun q => map_query q cls.fields)) ∧
    (∀ es fields, map_query (.dict es) fields = .dict (es.map (fun e =>
      ((map_entry_with_dots e.1 fields).1,
       map_query e.2 (map_entry_with_dots e.1 fields).2)))) ∧
    (∀ k f fields, getA fields k = some f → (map_entry k fields).1 = f.attr.getD k) := by
  refine ⟨?_, ?_, ?_, ?_⟩
  · intro h
    unfold cook_find_filter
    rw [h]
    simp only [if_pos]
    refine ⟨_, rfl, getA_setA _ _ _, ?_, ?_⟩
    · intro ho
      simp [discriminatorClause, ho]
    · intro ho
      simp [discriminatorClause, List.isEmpty_eq_true, ho]
  · intro h
    unfold cook_find_filter
    rw [h]
    simp
  · intro es fields
    simp [map_query, map_query_entries_eq]
  · intro k f fields hf
    simp [map_entry, hf]

/-- Claim C3, witness: a Dog query gets the discriminator entry, an Animal
(root) query stays untouched. -/
theorem c3_child_query_discriminator_witness :
    (∃ es, cook_find_filter dogCls (some (.dict [("n", .leaf (.vint 1))])) = some (.dict es) ∧
      getA es "_cls" = some (discriminatorClause dogCls)) ∧
    cook_find_filter animalCls none = none := by
  have h1 := (c3_child_query_discriminator dogCls (some (.dict [("n", .leaf (.vint 1))]))).1 rfl
  have h2 := (c3_child_query_discriminator animalCls none).2.1 rfl
  obtain ⟨es, he, hcls, -⟩ := h1
  exact ⟨⟨es, he, hcls⟩, h2⟩

/-- Claim C4: for every commit whose storage operation fails with a
duplicate-key error — an insert of a fresh document, or an update of a
created modified document — when the error message names a declared index,
commit raises the structured validation error for that index (a single
unique message for a one-key index, the compound message over the sorted
key names for a multi-key index); when no declared index matches, the raw
storage error is re-raised unchanged. -/
theorem c4_duplicate_key_translation (env : CommitEnv) (d : Document)
    (ioall : Bool) (conds : List (String × PyVal)) (errmsg : String)
    (hreq : d.data.requiredErrors = [])
    (hio : ioValidateErrors env d.data (ioPartArg d ioall) = [])
    (hbranch : (d.is_created = false ∧ conds = [] ∧ env.insertResult = .error errmsg) ∨
      (d.is_created = true ∧ d.isModified = true ∧ env.updateDup = some errmsg)) :
    (∀ idx, env.indexes.find? (fun i => i.matchesErrmsg errmsg) = some idx →
      (commit env d ioall conds).result = .error (.validationErrors (dupErrorPayload idx)) ∧
      (∀ k, idx.keys.map Prod.fst = [k] →
        dupErrorPayload idx = [(k, .one uniqueErrorMsg)]) ∧
      (∀ k₁ k₂ ks, idx.keys.map Prod.fst = k₁ :: k₂ :: ks →
        dupErrorPayload idx = (sortStrings (k₁ :: k₂ :: ks)).map
          (fun k => (k, .one (uniqueCompoundMsg (sortStrings (k₁ :: k₂ :: ks))))))) ∧
    (env.indexes.find? (fun i => i.matchesErrmsg errmsg) = none →
      (commit env d ioall conds).result = .error (.dupKeyReraise errmsg)) := by
  have hres : (commit env d ioall conds).result = .error (dupOutcome errmsg env.indexes) := by
    rcases hbranch with ⟨hc, hcnil, hins⟩ | ⟨h1, h2, hupd⟩
    · subst hcnil
      have hcommit : commit env d ioall [] = commitInsert env d ioall := by
        unfold commit
        simp [hc]
      rw [hcommit]
      unfold commitInsert
      simp [hreq, hio, hins]
    · have hcommit : commit env d ioall conds = commitUpdate env d ioall conds := by
        unfold commit
        simp [h1, h2]
      rw [hcommit]
      unfold commitUpdate
      simp [hreq, hio, hupd]
  constructor
  · intro idx hfind
    refine ⟨?_, ?_, ?_⟩
    · rw [hres]
      simp [dupOutcome, translateDupError, hfind]
    · intro k hk
      unfold dupErrorPayload
      rw [hk]
    · intro k₁ k₂ ks hk
      unfold dupErrorPayload
      rw [hk]
  · intro hfind
    rw [hres]
    simp [dupOutcome, translateDupError, hfind]

/-- Claim C4, witness: a duplicate-key error naming index `a_1` is turned
into the structured unique-violation error on field `a`, both when an
insert raises it and when an update raises it. -/
theorem c4_duplicate_key_translation_witness :
    (commit c4Env c4Doc false []).result =
      .error (.validationErrors [("a", .one uniqueErrorMsg)]) ∧
    (commit c4UpdEnv c4UpdDoc false []).result =
      .error (.validationErrors [("a", .one uniqueErrorMsg)]) := by
  have h1 := (c4_duplicate_key_translation c4Env c4Doc false []
      "E11000 duplicate key error index: db.doc.$a_1 dup key" rfl rfl
      (Or.inl ⟨rfl, rfl, rfl⟩)).1 c4Idx (by decide)
  have h2 := (c4_duplicate_key_translation c4UpdEnv c4UpdDoc false []
      "E11000 duplicate key error index: db.doc.$a_1 dup key" rfl rfl
      (Or.inr ⟨rfl, rfl, rfl⟩)).1 c4Idx (by decide)
  rw [show dupErrorPayload c4Idx = [("a", ErrMsgs.one uniqueErrorMsg)] from rfl] at h1 h2
  exact ⟨h1.1, h2.1⟩

/-- Claim C5, counterexample: a unique field that is required but allows
None is given a sparse unique index (the claim says a required field gets a
plain, non-sparse index), and the index key is the logical field name, not
the renamed storage key `aa`. -/
theorem c5_unique_index_flags_counterexample :
    (collectFieldIndexes false [("a", c5Field)]).map IndexM.sparse = [true] ∧
    (collectFieldIndexes false [("a", c5Field)]).map IndexM.keys = [[("a", Dir.asc)]] :=
  ⟨by decide, by decide⟩

/-- Claim C5, amended: every unique field yields exactly one derived unique
index, on the name the builder passes (the logical name, which coincides
with the storage key unless renamed), sparse exactly when the field is not
required or allows None, with `_cls` appended for child documents. -/
theorem c5_unique_index_flags_amended (is_child : Bool)
    (fields : List (String × BField)) (name : String) (f : BField)
    (hmem : (name, f) ∈ fields) (hu : f.unique = true) (hn : ¬ name = "")
    (hkey : explicit_key (.raw name) = (name, Dir.asc)) :
    ({ keys := if is_child then [(name, Dir.asc), ("_cls", Dir.asc)] else [(name, Dir.asc)],
       unique := true, sparse := !f.required || f.allow_none } : IndexM)
      ∈ collectFieldIndexes is_child fields := by
  unfold collectFieldIndexes
  rw [List.mem_filterMap]
  refine ⟨(name, f), hmem, ?_⟩
  unfold parse_field_spec fieldIndexPath
  simp [hu, hn]
  cases is_child <;>
    simp [parse_index, hkey, show explicit_key (.raw "_cls") = ("_cls", Dir.asc) by decide]

/-- Claim C5, witness for the amended theorem: a plain unique field (not
required, not allow_none) gets a sparse unique index on its own name. -/
theorem c5_unique_index_flags_witness :
    ({ keys := [("u", Dir.asc)], unique := true, sparse := true } : IndexM)
      ∈ collectFieldIndexes false [("u", ({ unique := true } : BField))] :=
  c5_unique_index_flags_amended false [("u", { unique := true })] "u" { unique := true }
    (List.mem_singleton.mpr rfl) rfl (by decide) (by decide)

/-- Claim C6: building a child document injects the hidden discriminator
field `cls` (storage key `_cls`, defaulting to the concrete class name,
dump-only), registers the automatic `_cls` index, appends `_cls` to every
Meta-declared custom index, and appends `_cls` to every unique-field
index. -/
theorem c6_child_build_discriminator_indexes (clsname : String)
    (metaIndexes : List IndexSpec) (fields : List (String × BField))
    (parentIndexes : List IndexM) :
    (getA (add_child_field clsname fields) "cls" =
      some { attr := some "_cls", fdefault := .val (.vstr clsname), dump_only := true }) ∧
    (({ keys := [("_cls", Dir.asc)] } : IndexM)
      ∈ collect_indexes true metaIndexes fields parentIndexes) ∧
    (∀ spec, spec ∈ metaIndexes →
      parse_index spec (some "_cls") ∈ collect_indexes true metaIndexes fields parentIndexes ∧
      (parse_index spec (some "_cls")).keys = (parse_index spec none).keys ++ [("_cls", Dir.asc)]) ∧
    (∀ name f, (name, f) ∈ fields → f.unique = true → ¬ name = "" →
      explicit_key (.raw name) = (name, Dir.asc) →
      ({ keys := [(name, Dir.asc), ("_cls", Dir.asc)],
         unique := true, sparse := !f.required || f.allow_none } : IndexM)
        ∈ collect_indexes true metaIndexes fields parentIndexes) := by
  refine ⟨?_, ?_, ?_, ?_⟩
  · unfold add_child_field
    induction fields with
    | nil => simp [setA, getA]
    | cons hd tl ih =>
      by_cases h : hd.1 = "cls"
      · simp [setA, h, getA]
      · obtain ⟨k, v⟩ := hd
        simp only at h
        simp [setA, h, getA, ih]
  · unfold collect_indexes
    refine List.mem_append_left _ (List.mem_append_right _ ?_)
    simp [parse_index, show explicit_key (.raw "_cls") = ("_cls", Dir.asc) by decide]
  · intro spec hspec
    constructor
    · unfold collect_indexes
      refine List.mem_append_left _ (List.mem_append_left _ (List.mem_append_right _ ?_))
      exact List.mem_map_of_mem _ hspec
    · unfold parse_index
      cases spec <;>
        simp [show explicit_key (.raw "_cls") = ("_cls", Dir.asc) by decide]
  · intro name f hmem hu hn hkey
    unfold collect_indexes
    refine List.mem_append_right _ ?_
    unfold collectFieldIndexes
    rw [List.mem_filterMap]
    refine ⟨(name, f), hmem, ?_⟩
    unfold parse_field_spec fieldIndexPath
    simp [hu, hn]
    simp [parse_index, hkey, show explicit_key (.raw "_cls") = ("_cls", Dir.asc) by decide]

/-- Claim C6, witness at a concrete child class build. -/
theorem c6_child_build_discriminator_indexes_witness :
    getA (add_child_field "Dog" [("u", ({ unique := true } : BField))]) "cls" =
      some { attr := some "_cls", fdefault := .val (.vstr "Dog"), dump_only := true } ∧
    ({ keys := [("_cls", Dir.asc)] } : IndexM)
      ∈ collect_indexes true [.str "x"] [("u", { unique := true })] [] ∧
    parse_index (.str "x") (some "_cls")
      ∈ collect_indexes true [.str "x"] [("u", { unique := true })] [] ∧
    ({ keys := [("u", Dir.asc), ("_cls", Dir.asc)],
       unique := true, sparse := true } : IndexM)
      ∈ collect_indexes true [.str "x"] [("u", { unique := true })] [] := by
  have h := c6_child_build_discriminator_indexes "Dog" [.str "x"] [("u", { unique := true })] []
  exact ⟨h.1, h.2.1, (h.2.2.1 _ (List.mem_singleton.mpr rfl)).1,
    h.2.2.2 "u" { unique := true } (List.mem_singleton.mpr rfl) rfl (by decide) (by decide)⟩

/-- Claim C7: a field with `allow_none=False` rejects None on deserialize
and on `set` with the null validation error; a field with `allow_none=True`
passes None through unchanged in both storage directions, so None
round-trips through storage. -/
theorem c7_allow_none_null_handling (f : BField) (p : DataProxy) (name k : String)
    (hf : p.getField name = .ok (k, f)) :
    (f.allow_none = false →
      f.deserialize .vnone = .error nullErrorMsg ∧
      p.set name .vnone = .error (.validationMsg nullErrorMsg)) ∧
    (f.allow_none = true →
      f.serialize_to_mongo (.val .vnone) = .val .vnone ∧
      f.deserialize_from_mongo .vnone = .vnone ∧
      f.deserialize .vnone = .ok .vnone) := by
  constructor
  · intro h
    refine ⟨by simp [BField.deserialize, h], ?_⟩
    simp [DataProxy.set, hf, h]
  · intro h
    exact ⟨by simp [BField.serialize_to_mongo, h],
      by simp [BField.deserialize_from_mongo, h],
      by simp [BField.deserialize, h]⟩

/-- Claim C7, witness at concrete fields with both flag values. -/
theorem c7_allow_none_null_handling_witness :
    (initProxy [("x", ({} : BField))]).getField "x" = .ok ("x", ({} : BField)) ∧
    ({} : BField).deserialize .vnone = .error nullErrorMsg ∧
    (initProxy [("x", ({} : BField))]).set "x" .vnone
      = .error (.validationMsg nullErrorMsg) ∧
    ({ allow_none := true } : BField).serialize_to_mongo (.val .vnone) = .val .vnone ∧
    ({ allow_none := true } : BField).deserialize_from_mongo .vnone = .vnone := by
  have h1 := c7_allow_none_null_handling ({} : BField)
    (initProxy [("x", ({} : BField))]) "x" "x" rfl
  have h2 := c7_allow_none_null_handling ({ allow_none := true } : BField)
    (initProxy [("y", ({ allow_none := true } : BField))]) "y" "y" rfl
  exact ⟨rfl, (h1.1 rfl).1, (h1.1 rfl).2, (h2.2 rfl).1, (h2.2 rfl).2.1⟩

/-- Claim C8: every commit trace is sorted by phase (hooks, then required
validation, then io validation, then the storage write, then post hooks);
absent storage duplicate-key errors a commit that raises an aggregated
validation error issued no storage operation; in the insert branch a
required-validation failure stops before any io event and an io failure
yields the full aggregated per-field error payload with no write; and the
io-error collection contains exactly the validated fields whose validator
list is non-empty. -/
theorem c8_commit_validation_ordering (env : CommitEnv) (d : Document)
    (ioall : Bool) (conds : List (String × PyVal)) :
    ((commit env d ioall conds).trace.Pairwise (fun x y => x.phase ≤ y.phase)) ∧
    (∀ v, env.insertResult = .ok v → env.updateDup = none →
      ∀ E, (commit env d ioall conds).result = .error (.validationErrors E) →
        (commit env d ioall conds).ops = []) ∧
    (d.is_created = false → conds = [] → d.data.requiredErrors = [] →
      ioValidateErrors env d.data (ioPartArg d ioall) ≠ [] →
      (commit env d ioall conds).result =
        .error (.validationErrors (ioErrPayload env d ioall)) ∧
      (commit env d ioall conds).ops = []) ∧
    (d.is_created = false → conds = [] → d.data.requiredErrors ≠ [] →
      (commit env d ioall conds).trace = [.preInsert, .requiredValidate] ∧
      (commit env d ioall conds).result = .error (.validationErrors (reqErrPayload d)) ∧
      (commit env d ioall conds).ops = []) ∧
    (∀ name msgs, ((name, msgs) ∈ ioValidateErrors env d.data (ioPartArg d ioall)) ↔
      ∃ f, (name, f) ∈ d.data.fields ∧ ioSkips (ioPartArg d ioall) name = false ∧
        ∃ w, (getA d.data.data (f.mongoKey name)).getD .missing = .val w ∧
          env.ioValidate name w = msgs ∧ msgs ≠ []) := by
  refine ⟨commit_trace_sorted env d ioall conds, ?_, ?_, ?_, ?_⟩
  · intro v hins hupd E hres
    exact commit_no_write_on_validation_error env d ioall conds v hins hupd E hres
  · intro h1 h2 h3 h4
    subst h2
    constructor <;> simp [commit, commitInsert, h1, h3, h4, ioErrPayload]
  · intro h1 h2 h3
    subst h2
    refine ⟨?_, ?_, ?_⟩ <;> simp [commit, commitInsert, h1, h3, reqErrPayload]
  · intro name msgs
    unfold ioValidateErrors
    rw [List.mem_filterMap]
    constructor
    · rintro ⟨⟨n, f⟩, hnf, hsome⟩
      by_cases hskip : ioSkips (ioPartArg d ioall) n = true
      · rw [if_pos hskip] at hsome
        cases hsome
      · rw [if_neg hskip] at hsome
        cases hval : (getA d.data.data (f.mongoKey n)).getD .missing with
        | missing =>
          rw [hval] at hsome
          cases hsome
        | val w =>
          rw [hval] at hsome
          dsimp only at hsome
          cases herr : env.ioValidate n w with
          | nil =>
            rw [herr] at hsome
            cases hsome
          | cons e es =>
            rw [herr] at hsome
            dsimp only at hsome
            cases hsome
            exact ⟨f, hnf, by simpa using hskip, w, hval, herr, by simp⟩
    · rintro ⟨f, hnf, hskip, w, hval, herr, hne⟩
      refine ⟨(name, f), hnf, ?_⟩
      rw [if_neg (by simp [hskip])]
      rw [hval]
      dsimp only
      rw [herr]
      cases msgs with
      | nil => exact absurd rfl hne
      | cons e es => rfl

/-- Claim C8, witness: with a failing io validator on field `a`, the commit
ends in the aggregated validation error, issues no storage operation, and
its trace is phase-sorted. -/
theorem c8_commit_validation_ordering_witness :
    (commit c8Env c8Doc false []).result =
      .error (.validationErrors (ioErrPayload c8Env c8Doc false)) ∧
    (commit c8Env c8Doc false []).ops = [] ∧
    (commit c8Env c8Doc false []).trace.Pairwise (fun x y => x.phase ≤ y.phase) := by
  have h := c8_commit_validation_ordering c8Env c8Doc false []
  have h3 := h.2.2.1 rfl rfl rfl (by decide)
  exact ⟨h3.1, h3.2, h.1⟩

/-- Claim C9: a never-persisted document always reports itself modified, and
its commit (with no conditions) enters the insert branch — the trace starts
with the `pre_insert` hook — and is never the no-op return. -/
theorem c9_new_document_always_insert (env : CommitEnv) (d : Document)
    (ioall : Bool) (h : d.is_created = false) :
    d.isModified = true ∧
    (commit env d ioall []).trace.head? = some .preInsert ∧
    (commit env d ioall []).result ≠ .ok false := by
  have hcommit : commit env d ioall [] = commitInsert env d ioall := by
    unfold commit
    simp [h]
  refine ⟨by simp [Document.isModified, h], ?_, ?_⟩
  · rw [hcommit]
    unfold commitInsert
    split
    · rfl
    · split
      · rfl
      · split
        · rfl
        · split <;> rfl
  · rw [hcommit]
    unfold commitInsert
    split
    · simp
    · split
      · simp
      · split
        · simp
        · split <;> simp

/-- Claim C9, witness at a concrete fresh document. -/
theorem c9_new_document_always_insert_witness :
    exDoc.isModified = true ∧
    (commit exEnv exDoc false []).trace.head? = some .preInsert := by
  have h := c9_new_document_always_insert exEnv exDoc false rfl
  exact ⟨h.1, h.2.1⟩

/-- Claim C10: committing a never-persisted document with non-empty
conditions raises RuntimeError with an empty trace (no hook, validation or
storage event) and leaves document state and storage untouched. -/
theorem c10_conditions_requires_created (env : CommitEnv) (d : Document)
    (ioall : Bool) (conds : List (String × PyVal)) (h : d.is_created = false)
    (hc : conds ≠ []) :
    commit env d ioall conds =
      { result := .error .runtimeError, doc := d, ops := [], trace := [] } := by
  have hc2 : conds.isEmpty = false := by
    cases conds with
    | nil => exact absurd rfl hc
    | cons a t => rfl
  unfold commit
  simp [h, hc2]

/-- Claim C10, witness at a concrete fresh document and condition. -/
theorem c10_conditions_requires_created_witness :
    commit exEnv exDoc false [("v", .vint 1)] =
      { result := .error .runtimeError, doc := exDoc, ops := [], trace := [] } :=
  c10_conditions_requires_created exEnv exDoc false [("v", .vint 1)] rfl (by simp)

end Umongo
